import Mathlib

/-!
Verification of the statistical profiling / compatibility-scoring core of the
TheHitAlgorithm repository (Python).  The embedding below translates the three
components under `src/backend/core/` — `comparator.py` (Comparator),
`playlist_comparator.py` (PlaylistComparator) and `playlist_gatekeeper.py`
(PlaylistGatekeeper) — into Lean.

Modelling conventions:
* Python heterogeneous values (float / str / None) are the inductive `PyVal`;
  Python floats are idealised as exact rationals `ℚ` (the constants `33.3`,
  thresholds, means etc. are taken exactly).
* Python dicts are association lists `List (String × α)`; `lookup` returns the
  first binding (a real dict has unique keys; theorems that need uniqueness
  state it).  Iteration order of `dict.items()` is the list order.
* Code that can raise an uncaught exception is embedded in `Except PyErr`;
  a `try/except` that the source catches locally is a total branch.
* `numpy.std` is the population standard deviation `√variance`.  Wherever the
  source stores or compares a standard deviation we keep the exact variance
  (a rational) and apply `Real.sqrt` at the point of use, so the square-root
  lives in `ℝ` while all fitted state stays computable.
-/

/-- A Python runtime value as used by the comparator layer: a float/int, a
string, or `None`. -/
inductive PyVal where
  | num (q : ℚ)
  | str (s : String)
  | none
deriving DecidableEq, Repr

/-- First-binding lookup in an association list: the embedding of `d[k]` /
`k in d` on a Python dict. -/
def lookup {α : Type} : List (String × α) → String → Option α
  | [], _ => Option.none
  | (k, v) :: rest, key => if k = key then some v else lookup rest key

/-- Whether a `PyVal` is numeric (`isinstance(v, (int, float))`). -/
def isNumB : PyVal → Bool
  | .num _ => true
  | _ => false

/-- Decimal-string parser: the embedding of Python `float(s)` on strings
(restricted to plain decimal literals `[-]digits[.digits]`; on anything else
the model fails like `float` raising `ValueError`). -/
def parseDecimal (s : String) : Option ℚ :=
  let core (cs : List Char) : Option ℚ :=
    let intPart := cs.takeWhile (·.isDigit)
    let rest := cs.dropWhile (·.isDigit)
    if intPart = [] then Option.none
    else
      let iv : ℚ := intPart.foldl (fun a c => a * 10 + (c.toNat - '0'.toNat : ℕ)) 0
      match rest with
      | [] => some iv
      | '.' :: frac =>
          if frac ≠ [] ∧ frac.all (·.isDigit) then
            let fv : ℚ := frac.foldl (fun a c => a * 10 + (c.toNat - '0'.toNat : ℕ)) 0
            some (iv + fv / (10 ^ frac.length : ℚ))
          else Option.none
      | _ => Option.none
  match s.toList with
  | '-' :: cs => (core cs).map (fun q => -q)
  | cs => core cs

/-- Embedding of Python `float(v)` under a `try: ... except (ValueError,
TypeError)` guard: `none` exactly when the conversion raises. -/
def pyFloat : PyVal → Option ℚ
  | .num q => some q
  | .str s => parseDecimal s
  | .none => Option.none

/-- An uncaught Python exception escaping one of the embedded functions. -/
inductive PyErr where
  | keyError (k : String)
  | typeError
deriving DecidableEq, Repr

deriving instance DecidableEq for Except

/-- The four comparator severity levels. -/
inductive Status where
  | perfect
  | good
  | warning
  | critical
deriving DecidableEq, Repr

/-- One entry of the recommendation list returned by
`Comparator.compare_track` (message text is presentation and not modelled;
`score` is present only on the Overall Score item). -/
structure Item where
  param : String
  status : Status
  score : Option ℚ
deriving DecidableEq, Repr

/-- A profile entry as consumed by the Comparator: a Python dict that is
expected to hold `mean` / `std` (and possibly more) as `PyVal`s. -/
abbrev PEntry : Type := List (String × PyVal)

/-- A Comparator target profile: feature key ↦ profile-entry dict. -/
abbrev Profile : Type := List (String × PEntry)

/-- A track's feature dict on the comparator side. -/
abbrev FeatDict : Type := List (String × PyVal)

/-- Tolerance table from `Comparator.__init__` (values in standard
deviations). -/
def tolerance_perfect : ℚ := 1/2

/-- Tolerance bound for the `good` band (`Comparator.__init__`). -/
def tolerance_good : ℚ := 1

/-- Tolerance bound for the `warning` band (`Comparator.__init__`). -/
def tolerance_warning : ℚ := 3/2

/-- Embedding of `Comparator.compare_feature` (comparator.py lines 361-411).
The `unit` argument only affects message text and is dropped.  Uncaught
`KeyError`s from `profile['mean']` / `profile['std']` surface as `.error`;
the `try` around the distance computation catches the `TypeError` raised by
`target_std > 0` when the std is a string or `None`. -/
def compare_feature (tp : Profile) (track : FeatDict) (k nm : String) :
    Except PyErr Item :=
  match lookup track k, lookup tp k with
  | some value, some entry =>
    match lookup entry "mean" with
    | Option.none => .error (.keyError "mean")
    | some tmean =>
      match lookup entry "std" with
      | Option.none => .error (.keyError "std")
      | some tstd =>
        match value, tmean with
        | .str _, _ => .ok ⟨nm, .good, Option.none⟩
        | _, .str _ => .ok ⟨nm, .good, Option.none⟩
        | .none, _ => .ok ⟨nm, .good, Option.none⟩
        | .num _, .none => .ok ⟨nm, .good, Option.none⟩
        | .num v, .num m =>
          match tstd with
          | .num sd =>
            let d := if 0 < sd then |v - m| / sd else 0
            if d ≤ tolerance_perfect then .ok ⟨nm, .perfect, Option.none⟩
            else if d ≤ tolerance_good then .ok ⟨nm, .good, Option.none⟩
            else if d ≤ tolerance_warning then .ok ⟨nm, .warning, Option.none⟩
            else .ok ⟨nm, .critical, Option.none⟩
          | _ => .ok ⟨nm, .good, Option.none⟩
  | _, _ => .ok ⟨nm, .good, Option.none⟩

/-- Computable floor of a rational (`⌊q⌋` via floor division of numerator by
denominator). -/
def qfloor (q : ℚ) : ℤ := Int.fdiv q.num (q.den : ℤ)

/-- Computable round-half-up of a rational, `⌊q + 1/2⌋`. -/
def qround (q : ℚ) : ℤ := qfloor (q + 1/2)

/-- Rounding to one decimal, the embedding of `round(x, 1)` (idealised to
exact rationals and to round-half-up; no claim in scope depends on the
half-way tie rule). -/
def round1 (q : ℚ) : ℚ := ((qround (10 * q) : ℤ) : ℚ) / 10

/-- The per-feature score accumulation loop of
`Comparator.calculate_match_score` (comparator.py lines 133-158), iterating
the track dict in order.  An entry of the target profile that is missing
`mean` or `std` raises an uncaught `KeyError`; a non-numeric `std` raises an
uncaught `TypeError` at `target_std > 0` (both outside the inner `try`). -/
def matchScores (tp : Profile) : FeatDict → Except PyErr (List ℚ)
  | [] => .ok []
  | (k, v) :: rest =>
    match lookup tp k with
    | Option.none => matchScores tp rest
    | some entry =>
      if k = "filename" then matchScores tp rest
      else
        match v with
        | .str _ => matchScores tp rest
        | .none => matchScores tp rest
        | .num q =>
          match lookup entry "mean" with
          | Option.none => .error (.keyError "mean")
          | some tm =>
            match lookup entry "std" with
            | Option.none => .error (.keyError "std")
            | some tsd =>
              match tm with
              | .str _ => matchScores tp rest
              | .none => matchScores tp rest
              | .num m =>
                match tsd with
                | .num sd =>
                  if 0 < sd then
                    match matchScores tp rest with
                    | .error e => .error e
                    | .ok others =>
                        .ok ((max 0 (100 - (|q - m| / sd) * (333/10))) :: others)
                  else matchScores tp rest
                | _ => .error .typeError

/-- Embedding of `Comparator.calculate_match_score` (comparator.py lines
123-160): mean of the collected per-feature scores rounded to one decimal,
or `0.0` when no feature was comparable. -/
def calculate_match_score (tp : Profile) (track : FeatDict) : Except PyErr ℚ :=
  match matchScores tp track with
  | .error e => .error e
  | .ok scores =>
      .ok (if scores = [] then 0 else round1 (scores.sum / scores.length))

/-- Embedding of `Comparator.get_score_status` (comparator.py lines
162-171). -/
def get_score_status (s : ℚ) : Status :=
  if 80 ≤ s then .perfect
  else if 60 ≤ s then .good
  else if 40 ≤ s then .warning
  else .critical

/-- The `param_metadata` table of `Comparator.compare_track` (comparator.py
lines 53-99): comparison key ↦ display name (units dropped, they only affect
message text). -/
def param_metadata : List (String × String) :=
  [("bpm", "BPM"), ("energy", "Energy"), ("loudness", "Loudness"),
   ("spectral_centroid", "Brightness"), ("rms", "RMS Level"),
   ("spectral_rolloff", "High-Freq Content"),
   ("spectral_flatness", "Spectral Flatness"),
   ("zero_crossing_rate", "Zero Crossing Rate"),
   ("spectral_contrast", "Spectral Contrast"),
   ("low_energy", "Low Energy"), ("mid_energy", "Mid Energy"),
   ("high_energy", "High Energy"), ("sub_bass_presence", "Sub-Bass"),
   ("danceability", "Danceability"), ("beat_strength", "Beat Strength"),
   ("valence", "Valence (Mood)"), ("stereo_width", "Stereo Width"),
   ("key_confidence", "Key Confidence"), ("dynamic_range", "Dynamic Range"),
   ("loudness_range", "Loudness Range"), ("true_peak", "True Peak"),
   ("crest_factor", "Crest Factor"), ("transient_energy", "Transient Energy"),
   ("harmonic_to_noise_ratio", "Harmonic/Noise Ratio"),
   ("harmonic_complexity", "Harmonic Complexity"),
   ("melodic_range", "Melodic Range"),
   ("rhythmic_density", "Rhythmic Density"),
   ("arrangement_density", "Arrangement Density"),
   ("repetition_score", "Repetition Score"),
   ("frequency_occupancy", "Frequency Occupancy"),
   ("timbral_diversity", "Timbral Diversity"),
   ("vocal_instrumental_ratio", "Vocal/Instrumental"),
   ("energy_curve", "Energy Curve"),
   ("call_response_presence", "Call-Response")]

/-- The dynamic comparison loop of `Comparator.compare_track` (comparator.py
lines 102-111): for each metadata entry whose key is present in both track
and profile, run `compare_feature`. -/
def compareParams (tp : Profile) (track : FeatDict) :
    List (String × String) → Except PyErr (List Item)
  | [] => .ok []
  | (k, nm) :: rest =>
    if (lookup track k).isSome ∧ (lookup tp k).isSome then
      match compare_feature tp track k nm with
      | .error e => .error e
      | .ok it =>
        match compareParams tp track rest with
        | .error e => .error e
        | .ok others => .ok (it :: others)
    else compareParams tp track rest

/-- Embedding of `Comparator.compare_track` (comparator.py lines 30-121):
the Overall Score item first, then the dynamic per-feature items, then — when
the track carries the reserved categorical key `key` — an item for it that the
source appends with status hard-coded to `'good'` (lines 113-119). -/
def compare_track (tp : Profile) (track : FeatDict) : Except PyErr (List Item) :=
  match calculate_match_score tp track with
  | .error e => .error e
  | .ok score =>
    match compareParams tp track param_metadata with
    | .error e => .error e
    | .ok items =>
      let keyItem : List Item :=
        if (lookup track "key").isSome then [⟨"Key", .good, Option.none⟩] else []
      .ok (⟨"Overall Score", get_score_status score, some score⟩ :: items ++ keyItem)

/-- Embedding of `Comparator.compare_key` (comparator.py lines 342-359):
Python `key == profile['key'].get('mean', 'Unknown')` is string equality
against the stored mode and is `False` whenever the stored value is not a
string. -/
def compare_key (tp : Profile) (k : String) : Item :=
  match lookup tp "key" with
  | Option.none => ⟨"Key", .good, Option.none⟩
  | some entry =>
    let target := (lookup entry "mean").getD (.str "Unknown")
    match target with
    | .str t => if k = t then ⟨"Key", .perfect, Option.none⟩
                else ⟨"Key", .good, Option.none⟩
    | _ => ⟨"Key", .good, Option.none⟩

/-- Sum-based mean of a list of rationals (`numpy.mean`; `0` on the empty
list, which the source never hits). -/
def qmean (l : List ℚ) : ℚ := l.sum / l.length

/-- Population variance of a list of rationals: the square of `numpy.std`.
The source stores `std = √var`; we keep the exact rational variance. -/
def popVar (l : List ℚ) : ℚ := (l.map (fun x => (x - qmean l) ^ 2)).sum / l.length

/-- Minimum of a list of rationals (`numpy.min`; `0` on the empty list,
which the source never hits). -/
def qmin : List ℚ → ℚ
  | [] => 0
  | [x] => x
  | x :: y :: rest => min x (qmin (y :: rest))

/-- Maximum of a list of rationals (`numpy.max`; `0` on the empty list). -/
def qmax : List ℚ → ℚ
  | [] => 0
  | [x] => x
  | x :: y :: rest => max x (qmax (y :: rest))

/-- One stored profile statistic of `PlaylistComparator._create_profile`:
`{'mean', 'std', 'min', 'max'}` with the standard deviation represented by
its exact square `var` (`std = √var`, see `ProfileStat.std`). -/
structure ProfileStat where
  mean : ℚ
  var : ℚ
  min : ℚ
  max : ℚ
deriving DecidableEq, Repr

/-- The stored standard deviation itself (`float(np.std(values))`). -/
noncomputable def ProfileStat.std (s : ProfileStat) : ℝ := Real.sqrt (s.var : ℝ)

/-- First pass of `PlaylistComparator._create_profile` (lines 38-47): the
set of keys, other than `filename` and `key`, holding an `int`/`float`
value in at least one track.  Python iterates a `set` in unspecified order;
the embedding fixes first-occurrence order, and no claim depends on the
order of profile keys. -/
def allParams (tracks : List FeatDict) : List String :=
  (tracks.flatMap (fun t =>
    t.filterMap (fun kv =>
      if kv.1 ≠ "filename" ∧ kv.1 ≠ "key" ∧ isNumB kv.2 then some kv.1
      else Option.none))).dedup

/-- Second pass of `_create_profile` (lines 52-58): for one parameter,
every value that is present, not `None`, and survives `float(...)` —
so numeric strings are converted and counted. -/
def collectValues (tracks : List FeatDict) (p : String) : List ℚ :=
  tracks.filterMap (fun t => (lookup t p).bind pyFloat)

/-- Embedding of `PlaylistComparator._create_profile`
(playlist_comparator.py lines 31-68). -/
def create_profile (tracks : List FeatDict) : List (String × ProfileStat) :=
  if tracks = [] then []
  else
    (allParams tracks).filterMap (fun p =>
      let vs := collectValues tracks p
      if vs = [] then Option.none
      else some (p, ⟨qmean vs, popVar vs, qmin vs, qmax vs⟩))

/-- Claim-side helper (C7): the values the spec says are counted — only
actual numeric values, with non-numeric entries such as numeric strings
skipped. -/
def collectNumericValues (tracks : List FeatDict) (p : String) : List ℚ :=
  tracks.filterMap (fun t =>
    match lookup t p with
    | some (PyVal.num q) => some q
    | _ => Option.none)

/-- Claim-side definition (C8 / spec §4.2): the σ-distance banding law
`d ≤ 0.5 → perfect, ≤ 1.0 → good, ≤ 1.5 → warning, > 1.5 → critical`. -/
def sigmaBand (d : ℚ) : Status :=
  if d ≤ 1/2 then .perfect
  else if d ≤ 1 then .good
  else if d ≤ 3/2 then .warning
  else .critical

/-- Claim-side definition (C3, as stated): per-feature score
`clamp(100 − 33.3·d, 0, 100)` where `d = |value−mean|/std`, and `d = 0`
whenever `std ≤ 0` — so a degenerate-spread feature contributes score 100. -/
def perFeatureScoreSpec (v m sd : ℚ) : ℚ :=
  let d := if sd ≤ 0 then 0 else |v - m| / sd
  min 100 (max 0 (100 - (333/10) * d))

/-- Claim-side definition (C3, as stated): overall score per the claim's
words — every feature present in both sides (except the categorical key)
with a numeric value contributes, including std ≤ 0 features at score
100. -/
def matchScoreSpecC3 (tp : Profile) (track : FeatDict) : ℚ :=
  let scores := track.filterMap (fun kv =>
    if kv.1 = "key" then Option.none
    else
      match kv.2, lookup tp kv.1 with
      | .num q, some entry =>
        match lookup entry "mean", lookup entry "std" with
        | some (.num m), some (.num sd) => some (perFeatureScoreSpec q m sd)
        | _, _ => Option.none
      | _, _ => Option.none)
  if scores = [] then 0 else round1 (scores.sum / scores.length)

/-- The per-feature scores the code actually averages (amended C3): a
feature contributes exactly when it is in both sides (and is not
`filename`), its value and profile mean are numeric, and the profile std is
numeric and strictly positive; degenerate-spread features are skipped, not
scored 100. -/
def amendedScores (tp : Profile) (track : FeatDict) : List ℚ :=
  track.filterMap (fun kv =>
    if kv.1 = "filename" then Option.none
    else
      match kv.2, lookup tp kv.1 with
      | .num q, some entry =>
        match lookup entry "mean", lookup entry "std" with
        | some (.num m), some (.num sd) =>
          if 0 < sd then some (max 0 (100 - (|q - m| / sd) * (333/10)))
          else Option.none
        | _, _ => Option.none
      | _, _ => Option.none)

/-- Amended C3 overall score: mean of `amendedScores` rounded to one
decimal, `0.0` when nothing was comparable. -/
def matchScoreAmended (tp : Profile) (track : FeatDict) : ℚ :=
  let scores := amendedScores tp track
  if scores = [] then 0 else round1 (scores.sum / scores.length)

/-- Well-formedness of one comparator profile entry: `mean` and `std` keys
are present, and if the mean is numeric so is the std.  This is exactly
what rules out the uncaught `KeyError` / `TypeError` paths of
`calculate_match_score`. -/
def wfEntry (e : PEntry) : Bool :=
  match lookup e "mean", lookup e "std" with
  | some m, some sd => !(isNumB m) || isNumB sd
  | _, _ => false

/-- Well-formedness of a whole comparator profile (every entry well
formed). -/
def wfProfile (tp : Profile) : Bool := tp.all (fun p => wfEntry p.2)

/-- A Gatekeeper feature dict: the Golden-8 extractor only ever produces
floats, so values are plain rationals. -/
abbrev Feat : Type := List (String × ℚ)

/-- The fixed Golden-8 key order (`golden_8_order` in
playlist_gatekeeper.py). -/
def golden8 : List String :=
  ["bpm", "beat_strength", "onset_rate", "energy",
   "danceability", "spectral_rolloff", "spectral_flatness", "dynamic_range"]

/-- `PlaylistGatekeeper.FEATURE_WEIGHTS` (the table is only ever read at
Golden-8 keys; the catch-all 0 is never reached from `check_track`). -/
def FEATURE_WEIGHTS : String → ℚ
  | "beat_strength" => 3
  | "onset_rate" => 2
  | "bpm" => 3/2
  | "energy" => 3/2
  | "danceability" => 2
  | "spectral_rolloff" => 1
  | "spectral_flatness" => 1
  | "dynamic_range" => 1/2
  | _ => 0

/-- `PlaylistGatekeeper.CRITICAL_THRESHOLD`. -/
def CRITICAL_THRESHOLD : ℚ := 2

/-- Look up a list of keys in order; `none` as soon as one is missing
(the `KeyError` of `features[key]`). -/
def lookupAll (d : Feat) : List String → Option (List ℚ)
  | [] => some []
  | k :: ks =>
    match lookup d k with
    | some v => (lookupAll d ks).map (fun vs => v :: vs)
    | Option.none => Option.none

/-- Embedding of `PlaylistGatekeeper._feature_dict_to_array` (lines
288-294): the Golden-8 values in fixed order, or a `KeyError`. -/
def feature_dict_to_array (d : Feat) : Option (List ℚ) := lookupAll d golden8

/-- Embedding of `PlaylistGatekeeper._features_to_matrix` (lines
280-286). -/
def features_to_matrix : List Feat → Option (List (List ℚ))
  | [] => some []
  | f :: rest =>
    match feature_dict_to_array f with
    | some r => (features_to_matrix rest).map (fun m => r :: m)
    | Option.none => Option.none

/-- Column `i` of a feature matrix (rows built by
`feature_dict_to_array` always have length 8, so the default is never
read). -/
def column (m : List (List ℚ)) (i : Nat) : List ℚ := m.map (fun r => r.getD i 0)

/-- Per-column means of the reference matrix (`StandardScaler.mean_`). -/
def colMeans (m : List (List ℚ)) : List ℚ :=
  (List.range 8).map (fun i => qmean (column m i))

/-- Per-column population variances of the reference matrix: the exact
squares of `StandardScaler.scale_` respectively `np.std(matrix, axis=0)`. -/
def colVars (m : List (List ℚ)) : List ℚ :=
  (List.range 8).map (fun i => popVar (column m i))

/-- The fitted `NearestNeighbors(n_neighbors=1, metric='euclidean')`
structure: it is fitted on the standardised reference rows, which are
determined by the raw matrix together with the scaler parameters recorded
at fit time. -/
structure NNModel where
  means : List ℚ
  vars : List ℚ
  refs : List (List ℚ)
deriving DecidableEq, Repr

/-- The mutable state of a `PlaylistGatekeeper` instance: `self.scaler`
(as its fitted mean/variance parameters), `self.playlist_features` and
`self.nn_model`, each `None` until assigned. -/
structure GKState where
  scaler : Option (List ℚ × List ℚ)
  playlist_features : Option (List Feat)
  nn_model : Option NNModel
deriving DecidableEq, Repr

/-- `PlaylistGatekeeper.__init__`: all three fields start as `None`. -/
def initState : GKState := ⟨Option.none, Option.none, Option.none⟩

/-- Embedding of `PlaylistGatekeeper.fit_playlist` (lines 188-221).  The
source assigns `self.playlist_features` *before* converting to a matrix,
so a conversion failure (malformed vectors) is caught and reported as
`False` but leaves the new reference list behind; the scaler and
nearest-neighbour model are only replaced on full success. -/
def fit_playlist (s : GKState) (pf : List Feat) : Bool × GKState :=
  if pf.length < 2 then (false, s)
  else
    let s1 : GKState := { s with playlist_features := some pf }
    match features_to_matrix pf with
    | Option.none => (false, s1)
    | some m =>
      let mu := colMeans m
      let v := colVars m
      (true, { s1 with scaler := some (mu, v), nn_model := some ⟨mu, v, m⟩ })

/-- `StandardScaler` per-coordinate scale: `√variance`, with the
sklearn zero-variance guard that divides by 1 instead of 0. -/
noncomputable def scaleOf (v : ℚ) : ℝ := if v = 0 then 1 else Real.sqrt (v : ℝ)

/-- `StandardScaler.transform` of one row: coordinatewise
`(x − mean) / scale`. -/
noncomputable def scaleRow : List ℚ → List ℚ → List ℚ → List ℝ
  | mu :: mus, v :: vs, x :: xs =>
      (((x : ℝ) - (mu : ℝ)) / scaleOf v) :: scaleRow mus vs xs
  | _, _, _ => []

/-- Squared Euclidean distance of two real vectors. -/
noncomputable def distSq : List ℝ → List ℝ → ℝ
  | x :: xs, y :: ys => (x - y) ^ 2 + distSq xs ys
  | _, _ => 0

/-- Euclidean distance of two real vectors. -/
noncomputable def euclDist (x y : List ℝ) : ℝ := Real.sqrt (distSq x y)

/-- Index of the first minimum of a list of distances: the deterministic
semantics of `kneighbors` with `n_neighbors=1` (ties go to the lowest
original index). -/
noncomputable def argminIdx : List ℝ → Nat
  | [] => 0
  | [_] => 0
  | d :: e :: rest =>
    let k := argminIdx (e :: rest)
    if d ≤ (e :: rest).getD k 0 then 0 else k + 1

/-- `nn_model.kneighbors`: index of the standardised reference row nearest
to the (already standardised) query in Euclidean distance. -/
noncomputable def kneighborsIdx (nn : NNModel) (uS : List ℝ) : Nat :=
  argminIdx (nn.refs.map (fun r => euclDist uS (scaleRow nn.means nn.vars r)))

/-- One row of the weighted z-score table
(`_calculate_weighted_z_scores`). -/
structure WZEntry where
  user_value : ℚ
  ref_value : ℚ
  z_score : ℝ
  weighted_z : ℝ
  weight : ℚ

/-- The loop of `PlaylistGatekeeper._calculate_weighted_z_scores` (lines
296-337): walk the Golden-8 keys with the matching per-feature reference
standard deviations; a missing key in either dict is the `KeyError` that
`check_track` catches. -/
noncomputable def calculate_weighted_z_scores (user ref : Feat) :
    List String → List ℝ → Option (List (String × WZEntry))
  | [], _ => some []
  | f :: fs, stds =>
    match lookup user f, lookup ref f with
    | some uv, some rv =>
      let sd := stds.headD 0
      let w := FEATURE_WEIGHTS f
      let z : ℝ := if 0 < sd then ((uv : ℝ) - (rv : ℝ)) / sd else 0
      (calculate_weighted_z_scores user ref fs stds.tail).map
        (fun rest => (f, ⟨uv, rv, z, z * (w : ℝ), w⟩) :: rest)
    | _, _ => Option.none

/-- Severity of one alert line. -/
inductive AlertLevel where
  | critical
  | warning
deriving DecidableEq, Repr

/-- Structural content of one alert string: the feature it names, whether
it is a CRITICAL or a WARNING line, and the reported direction
(`below = true` iff the weighted z is negative). -/
structure Alert where
  feature : String
  level : AlertLevel
  below : Bool

/-- Embedding of `PlaylistGatekeeper._identify_critical_alerts` (lines
339-367): CRITICAL lines for `beat_strength` / `onset_rate` strictly above
the 2.0 threshold, then WARNING lines for every *other* feature with
`|weighted_z| > 1.5` — the loop explicitly skips the two rhythm features.
`none` models the `KeyError` on a table missing the two rhythm keys. -/
noncomputable def identify_critical_alerts (t : List (String × WZEntry)) :
    Option (List Alert) :=
  match lookup t "beat_strength", lookup t "onset_rate" with
  | some be, some oe =>
    let a1 : List Alert :=
      if (CRITICAL_THRESHOLD : ℝ) < |be.weighted_z| then
        [⟨"beat_strength", .critical, decide (be.weighted_z < 0)⟩]
      else []
    let a2 : List Alert :=
      if (CRITICAL_THRESHOLD : ℝ) < |oe.weighted_z| then
        [⟨"onset_rate", .critical, decide (oe.weighted_z < 0)⟩]
      else []
    let warns : List Alert := t.filterMap (fun p =>
      if p.1 ≠ "beat_strength" ∧ p.1 ≠ "onset_rate" ∧ (3/2 : ℝ) < |p.2.weighted_z| then
        some ⟨p.1, .warning, decide (p.2.weighted_z < 0)⟩
      else Option.none)
    some (a1 ++ a2 ++ warns)
  | _, _ => Option.none

/-- The structured error payloads `check_track` can return: the
not-fitted precondition message, or any internal exception caught by the
blanket `except` and returned as `{"error": ...}`. -/
inductive GKError where
  | notFitted
  | internal
deriving DecidableEq, Repr

/-- The successful `check_track` result dict (the `llm_prompt` string is a
deterministic serialisation of the other fields and is not modelled;
`nearestIdx` records the `nearest_idx` the source computes internally). -/
structure Report where
  user_features : Feat
  nearest_reference : Feat
  nearestIdx : Nat
  weighted_z_scores : List (String × WZEntry)
  critical_alerts : List Alert

/-- Embedding of `PlaylistGatekeeper.check_track` (lines 223-278):
not-fitted guard, then the `try` block — standardise the candidate, find
the nearest reference, recompute the per-feature stds from the stored
reference dicts, build the weighted z table and the alert list; every
exception inside the block is caught and returned as a structured
error. -/
noncomputable def check_track (s : GKState) (user : Feat) : Except GKError Report :=
  match s.scaler, s.nn_model with
  | some sc, some nn =>
    (match feature_dict_to_array user with
     | Option.none => .error .internal
     | some u =>
       let uS := scaleRow sc.1 sc.2 u
       let idx := kneighborsIdx nn uS
       match s.playlist_features.bind (fun l => l.get? idx) with
       | Option.none => .error .internal
       | some nref =>
         match s.playlist_features.bind features_to_matrix with
         | Option.none => .error .internal
         | some m =>
           let stds := (colVars m).map (fun v => Real.sqrt (v : ℝ))
           match calculate_weighted_z_scores user nref golden8 stds with
           | Option.none => .error .internal
           | some wz =>
             match identify_critical_alerts wz with
             | Option.none => .error .internal
             | some alerts => .ok ⟨user, nref, idx, wz, alerts⟩)
  | _, _ => .error .notFitted

/-- Concrete Golden-8 reference fixture: every feature 0. -/
def refA : Feat :=
  [("bpm", 0), ("beat_strength", 0), ("onset_rate", 0), ("energy", 0),
   ("danceability", 0), ("spectral_rolloff", 0), ("spectral_flatness", 0),
   ("dynamic_range", 0)]

/-- Concrete Golden-8 reference fixture: like `refA` with beat_strength 6,
so the reference beat_strength population std is 3. -/
def refB : Feat :=
  [("bpm", 0), ("beat_strength", 6), ("onset_rate", 0), ("energy", 0),
   ("danceability", 0), ("spectral_rolloff", 0), ("spectral_flatness", 0),
   ("dynamic_range", 0)]

/-- Concrete candidate fixture: beat_strength 2, everything else 0 — its
beat_strength z against `refA` is 2/3, weighted z exactly 2.0. -/
def candU : Feat :=
  [("bpm", 0), ("beat_strength", 2), ("onset_rate", 0), ("energy", 0),
   ("danceability", 0), ("spectral_rolloff", 0), ("spectral_flatness", 0),
   ("dynamic_range", 0)]

/-- Malformed reference fixture: misses seven of the Golden-8 keys. -/
def badA : Feat := [("beat_strength", 0)]

/-- Second malformed reference fixture. -/
def badB : Feat := [("beat_strength", 1)]

/-! ### General helper lemmas -/

theorem lookup_mem {α : Type} {l : List (String × α)} {k : String} {v : α}
    (h : lookup l k = some v) : (k, v) ∈ l := by
  induction l with
  | nil => simp [lookup] at h
  | cons p rest ih =>
    obtain ⟨k1, v1⟩ := p
    by_cases hk : k1 = k
    · subst hk
      simp [lookup] at h
      simp [h]
    · simp [lookup, hk] at h
      exact List.mem_cons_of_mem _ (ih h)

theorem lookup_eq_of_mem_nodup {α : Type} {l : List (String × α)} {k : String}
    {v : α} (hn : (l.map Prod.fst).Nodup) (h : (k, v) ∈ l) :
    lookup l k = some v := by
  induction l with
  | nil => simp at h
  | cons p rest ih =>
    obtain ⟨k1, v1⟩ := p
    simp only [List.map_cons, List.nodup_cons] at hn
    rcases List.mem_cons.1 h with h1 | h1
    · cases h1
      simp [lookup]
    · have hk1 : k1 ≠ k := by
        intro hEq
        subst hEq
        exact hn.1 (List.mem_map.2 ⟨(k1, v), h1, rfl⟩)
      simp [lookup, hk1, ih hn.2 h1]

theorem wfEntry_of_lookup {tp : Profile} {k : String} {e : PEntry}
    (hw : wfProfile tp = true) (h : lookup tp k = some e) : wfEntry e = true := by
  have hm := lookup_mem h
  exact List.all_eq_true.1 hw (k, e) hm

/-! ### C8: σ-banding law of compare_feature -/

/-- C8 (confirmed): for a feature present in both track and profile with
numeric value, numeric mean and numeric std > 0, the status of
`compare_feature` is exactly the σ-band of the normalised distance
`|value − mean| / std`: ≤ 0.5 perfect, ≤ 1.0 good, ≤ 1.5 warning, > 1.5
critical. -/
theorem c8_sigma_banding (tp : Profile) (track : FeatDict) (k nm : String)
    (v m sd : ℚ) (entry : PEntry)
    (hv : lookup track k = some (.num v))
    (he : lookup tp k = some entry)
    (hm : lookup entry "mean" = some (.num m))
    (hs : lookup entry "std" = some (.num sd))
    (hsd : 0 < sd) :
    compare_feature tp track k nm =
      .ok ⟨nm, sigmaBand (|v - m| / sd), Option.none⟩ := by
  simp only [compare_feature, hv, he, hm, hs]
  simp only [sigmaBand, tolerance_perfect, tolerance_good, tolerance_warning,
    if_pos hsd]
  split_ifs <;> rfl

/-- Witness for C8 at a concrete input (`z = 0.5`, perfect band). -/
theorem c8_sigma_banding_witness :
    compare_feature [("bpm", [("mean", PyVal.num 120), ("std", PyVal.num 10)])]
      [("bpm", PyVal.num 125)] "bpm" "BPM" =
      .ok ⟨"BPM", sigmaBand (|(125 : ℚ) - 120| / 10), Option.none⟩ :=
  c8_sigma_banding [("bpm", [("mean", PyVal.num 120), ("std", PyVal.num 10)])]
    [("bpm", PyVal.num 125)] "bpm" "BPM" 125 120 10
    [("mean", PyVal.num 120), ("std", PyVal.num 10)] (by decide) (by decide)
    (by decide) (by decide) (by decide)

/-! ### C2: the categorical key item -/

theorem compare_feature_param {tp : Profile} {track : FeatDict} {k nm : String}
    {it : Item} (h : compare_feature tp track k nm = .ok it) : it.param = nm := by
  unfold compare_feature at h
  repeat' split at h
  all_goals try (simp only [] at h; repeat' split at h)
  all_goals first
    | (simp only [Except.ok.injEq] at h
       exact h ▸ rfl)
    | simp at h

theorem compareParams_param {tp : Profile} {track : FeatDict} :
    ∀ {l : List (String × String)} {items : List Item},
      compareParams tp track l = .ok items →
      ∀ it ∈ items, ∃ kn ∈ l, it.param = kn.2 := by
  intro l
  induction l with
  | nil =>
    intro items h it hit
    simp only [compareParams] at h
    cases h
    simp at hit
  | cons kn rest ih =>
    intro items h it hit
    rw [compareParams] at h
    by_cases hc : (lookup track kn.1).isSome ∧ (lookup tp kn.1).isSome
    · rw [if_pos hc] at h
      cases hcf : compare_feature tp track kn.1 kn.2 with
      | error e => rw [hcf] at h; simp at h
      | ok it1 =>
        rw [hcf] at h
        cases hcp : compareParams tp track rest with
        | error e => rw [hcp] at h; simp at h
        | ok items1 =>
          rw [hcp] at h
          simp only [Except.ok.injEq] at h
          subst h
          rcases List.mem_cons.1 hit with h3 | h3
          · subst h3
            exact ⟨kn, List.mem_cons_self .., compare_feature_param hcf⟩
          · obtain ⟨kn2, hkn2, hp⟩ := ih hcp it h3
            exact ⟨kn2, List.mem_cons_of_mem _ hkn2, hp⟩
    · rw [if_neg hc] at h
      obtain ⟨kn2, hkn2, hp⟩ := ih h it hit
      exact ⟨kn2, List.mem_cons_of_mem _ hkn2, hp⟩

/-- C2 counterexample: with the profile mode for `key` equal to the track's
key (`"C"` = `"C"`), the claim requires the comparison result's key item to
be `perfect`, but `compare_track` hard-codes it to `good` (comparator.py
lines 113-119 never consult the profile). -/
theorem c2_counterexample :
    compare_track [("key", [("mean", PyVal.str "C")])] [("key", PyVal.str "C")] =
      .ok [⟨"Overall Score", .critical, some 0⟩, ⟨"Key", .good, Option.none⟩] ∧
    Status.good ≠ Status.perfect :=
  ⟨by decide, by decide⟩

/-- C2 amended: in the comparison result produced by `compare_track`, the
item for the reserved categorical key always has status `good`, for match
and mismatch alike; the separate helper `compare_key` — which
`compare_track` does not invoke — is the function that returns `perfect` on
an exact mode match and `good` otherwise, and it never returns `warning` or
`critical`. -/
theorem c2_amended :
    (∀ (tp : Profile) (track : FeatDict) (its : List Item) (it : Item),
        compare_track tp track = .ok its → it ∈ its → it.param = "Key" →
        it.status = .good) ∧
    (∀ (tp : Profile) (k : String),
        (compare_key tp k).status = .perfect ∨ (compare_key tp k).status = .good) ∧
    (∀ (tp : Profile) (k t : String) (entry : PEntry),
        lookup tp "key" = some entry → lookup entry "mean" = some (.str t) →
        (compare_key tp k).status = (if k = t then Status.perfect else .good)) := by
  refine ⟨?_, ?_, ?_⟩
  · intro tp track its it h hit hp
    unfold compare_track at h
    cases hms : calculate_match_score tp track with
    | error e => rw [hms] at h; simp at h
    | ok score =>
      rw [hms] at h
      cases hcp : compareParams tp track param_metadata with
      | error e => rw [hcp] at h; simp at h
      | ok items =>
        rw [hcp] at h
        simp only [Except.ok.injEq] at h
        subst h
        rcases List.mem_cons.1 hit with h1 | h1
        · subst h1; simp at hp
        · rcases List.mem_append.1 h1 with h2 | h2
          · obtain ⟨kn, hkn, hq⟩ := compareParams_param hcp it h2
            rw [hp] at hq
            have hnot : ∀ kn ∈ param_metadata, kn.2 ≠ "Key" := by decide
            exact absurd hq.symm (hnot kn hkn)
          · by_cases hk : (lookup track "key").isSome
            · rw [if_pos hk] at h2
              simp only [List.mem_singleton] at h2
              rw [h2]
            · rw [if_neg hk] at h2
              simp at h2
  · intro tp k
    cases hk : lookup tp "key" with
    | none => simp [compare_key, hk]
    | some entry =>
      cases hm : (lookup entry "mean").getD (PyVal.str "Unknown") with
      | num q => simp [compare_key, hk, hm]
      | str t =>
        by_cases hkt : k = t
        · simp [compare_key, hk, hm, hkt]
        · simp [compare_key, hk, hm, hkt]
      | none => simp [compare_key, hk, hm]
  · intro tp k t entry h1 h2
    simp only [compare_key, h1, h2, Option.getD_some]
    split_ifs <;> rfl

/-- Witness for C2 amended at concrete inputs: the key item of a concrete
matching comparison is `good`, and `compare_key` on the same data is
`perfect`. -/
theorem c2_amended_witness :
    (Item.mk "Key" Status.good Option.none).status = Status.good ∧
    (compare_key [("key", [("mean", PyVal.str "C")])] "C").status =
      (if "C" = "C" then Status.perfect else Status.good) :=
  ⟨c2_amended.1 [("key", [("mean", PyVal.str "C")])] [("key", PyVal.str "C")]
      [⟨"Overall Score", .critical, some 0⟩, ⟨"Key", .good, Option.none⟩]
      ⟨"Key", .good, Option.none⟩ (by decide) (by decide) (by decide),
   c2_amended.2.2 [("key", [("mean", PyVal.str "C")])] "C" "C"
      [("mean", PyVal.str "C")] (by decide) (by decide)⟩

/-! ### C3: the overall match score -/

theorem wfEntry_elim {e : PEntry} (h : wfEntry e = true) :
    ∃ mv sv, lookup e "mean" = some mv ∧ lookup e "std" = some sv ∧
      (isNumB mv = true → isNumB sv = true) := by
  unfold wfEntry at h
  cases hm : lookup e "mean" <;> rw [hm] at h
  · simp at h
  cases hs : lookup e "std" <;> rw [hs] at h
  · simp at h
  refine ⟨_, _, rfl, rfl, ?_⟩
  intro hnum
  simpa [hnum] using h

theorem matchScores_eq_amended {tp : Profile} (hw : wfProfile tp = true) :
    ∀ track : FeatDict, matchScores tp track = .ok (amendedScores tp track) := by
  intro track
  induction track with
  | nil => rfl
  | cons kv rest ih =>
    obtain ⟨k, v⟩ := kv
    simp only [amendedScores, List.filterMap_cons] at ih ⊢
    rw [matchScores]
    cases hlk : lookup tp k with
    | none =>
      cases v <;> simp [hlk, ih]
    | some entry =>
      by_cases hf : k = "filename"
      · cases v <;> simp [hlk, hf, ih]
      · obtain ⟨mv, sv, hm, hs, himp⟩ := wfEntry_elim (wfEntry_of_lookup hw hlk)
        cases v with
        | str s => simp [hlk, hf, ih]
        | none => simp [hlk, hf, ih]
        | num q =>
          cases mv with
          | str s => simp [hlk, hf, hm, hs, ih]
          | none => simp [hlk, hf, hm, hs, ih]
          | num m =>
            obtain ⟨sd, rfl⟩ : ∃ sd, sv = PyVal.num sd := by
              cases sv with
              | num sd => exact ⟨sd, rfl⟩
              | str s => simp [isNumB] at himp
              | none => simp [isNumB] at himp
            by_cases hsd : 0 < sd
            · simp [hlk, hf, hm, hs, hsd, ih]
            · simp [hlk, hf, hm, hs, hsd, ih]

/-- C3 counterexample: for profile `{a: mean 0/std 1, b: mean 0/std 0}` and
track `{a: 2, b: 10}` the code skips the degenerate-spread feature `b`
entirely and returns 33.4, while the claim's formula scores `b` as 100 and
returns 66.7. -/
theorem c3_counterexample :
    calculate_match_score
        [("a", [("mean", PyVal.num 0), ("std", PyVal.num 1)]),
         ("b", [("mean", PyVal.num 0), ("std", PyVal.num 0)])]
        [("a", PyVal.num 2), ("b", PyVal.num 10)] = .ok (167/5) ∧
    matchScoreSpecC3
        [("a", [("mean", PyVal.num 0), ("std", PyVal.num 1)]),
         ("b", [("mean", PyVal.num 0), ("std", PyVal.num 0)])]
        [("a", PyVal.num 2), ("b", PyVal.num 10)] = 667/10 ∧
    (167/5 : ℚ) ≠ 667/10 := by
  refine ⟨?_, ?_, by norm_num⟩
  · norm_num +decide [calculate_match_score, matchScores, lookup, round1, qround,
      qfloor]
    rw [show Int.fdiv 669 2 = 334 from rfl]
    norm_num
  · norm_num +decide [matchScoreSpecC3, perFeatureScoreSpec, lookup, round1,
      qround, qfloor, List.filterMap_cons, List.filterMap_nil]
    rw [show Int.fdiv 1335 2 = 667 from rfl]
    norm_num

/-- C3 amended: on a well-formed profile (every entry carries `mean` and
`std`, with a numeric `std` whenever the mean is numeric),
`calculate_match_score` returns exactly the amended formula: per-feature
scores `max(0, 100 − 33.3·|value−mean|/std)` for every non-`filename`
feature in both sides with numeric value, mean and std > 0 — features with
std ≤ 0 are skipped, not scored 100 — averaged and rounded to one decimal,
with 0.0 when no feature qualifies. -/
theorem c3_amended (tp : Profile) (track : FeatDict) (hw : wfProfile tp = true) :
    calculate_match_score tp track = .ok (matchScoreAmended tp track) := by
  unfold calculate_match_score matchScoreAmended
  rw [matchScores_eq_amended hw]

/-- Witness for C3 amended at the counterexample input. -/
theorem c3_amended_witness :
    calculate_match_score
        [("a", [("mean", PyVal.num 0), ("std", PyVal.num 1)]),
         ("b", [("mean", PyVal.num 0), ("std", PyVal.num 0)])]
        [("a", PyVal.num 2), ("b", PyVal.num 10)] =
      .ok (matchScoreAmended
        [("a", [("mean", PyVal.num 0), ("std", PyVal.num 1)]),
         ("b", [("mean", PyVal.num 0), ("std", PyVal.num 0)])]
        [("a", PyVal.num 2), ("b", PyVal.num 10)]) :=
  c3_amended _ _ (by decide)

/-! ### C6: robustness of compare_track -/

theorem compare_feature_ok {tp : Profile} (hw : wfProfile tp = true)
    (track : FeatDict) (k nm : String) :
    ∃ it : Item, compare_feature tp track k nm = .ok it := by
  unfold compare_feature
  cases hv : lookup track k with
  | none => exact ⟨_, rfl⟩
  | some value =>
    cases he : lookup tp k with
    | none => exact ⟨_, rfl⟩
    | some entry =>
      obtain ⟨mv, sv, hm, hs, _⟩ := wfEntry_elim (wfEntry_of_lookup hw he)
      dsimp only []
      rw [hm, hs]
      cases value <;> cases mv <;>
        first
          | exact ⟨_, rfl⟩
          | (cases sv <;>
              first
                | exact ⟨_, rfl⟩
                | (dsimp only []
                   split_ifs <;> exact ⟨_, rfl⟩))

theorem compareParams_ok {tp : Profile} (hw : wfProfile tp = true)
    (track : FeatDict) :
    ∀ l : List (String × String), ∃ items, compareParams tp track l = .ok items := by
  intro l
  induction l with
  | nil => exact ⟨[], rfl⟩
  | cons kn rest ih =>
    obtain ⟨items, hi⟩ := ih
    rw [compareParams]
    by_cases hc : (lookup track kn.1).isSome ∧ (lookup tp kn.1).isSome
    · rw [if_pos hc]
      obtain ⟨it, hit⟩ := compare_feature_ok hw track kn.1 kn.2
      rw [hit, hi]
      exact ⟨it :: items, rfl⟩
    · rw [if_neg hc]
      exact ⟨items, hi⟩

/-- C6 counterexample: a profile entry that merely lacks the `std` field
makes the comparison raise an uncaught `KeyError` (comparator.py line 143 is
outside any `try`), so comparison does *not* tolerate profiles with missing
mean/std fields as the claim asserts. -/
theorem c6_counterexample :
    compare_track [("bpm", [("mean", PyVal.num 100)])] [("bpm", PyVal.num 120)] =
      .error (.keyError "std") := by
  decide

/-- C6 amended: comparison never raises *provided* every profile entry
carries both `mean` and `std`, with a numeric `std` whenever the mean is
numeric; under that well-formedness every track-side fault (missing key,
non-numeric value, `None`) degrades locally and the full result list is
produced, led by the Overall Score item. -/
theorem c6_amended (tp : Profile) (track : FeatDict) (hw : wfProfile tp = true) :
    ∃ items : List Item,
      compare_track tp track =
        .ok (⟨"Overall Score", get_score_status (matchScoreAmended tp track),
              some (matchScoreAmended tp track)⟩ :: items) := by
  unfold compare_track
  have h1 : calculate_match_score tp track = .ok (matchScoreAmended tp track) := by
    unfold calculate_match_score matchScoreAmended
    rw [matchScores_eq_amended hw]
  rw [h1]
  obtain ⟨items, hi⟩ := compareParams_ok hw track param_metadata
  rw [hi]
  exact ⟨_, rfl⟩

/-- Witness for C6 amended: a malformed track value (`None`) against a
well-formed profile still yields a full result. -/
theorem c6_amended_witness :
    ∃ items : List Item,
      compare_track [("bpm", [("mean", PyVal.num 100), ("std", PyVal.num 10)])]
        [("bpm", PyVal.none)] =
        .ok (⟨"Overall Score",
              get_score_status (matchScoreAmended
                [("bpm", [("mean", PyVal.num 100), ("std", PyVal.num 10)])]
                [("bpm", PyVal.none)]),
              some (matchScoreAmended
                [("bpm", [("mean", PyVal.num 100), ("std", PyVal.num 10)])]
                [("bpm", PyVal.none)])⟩ :: items) :=
  c6_amended _ _ (by decide)

/-! ### C7 / C10: the profile builder -/

theorem qmin_le_of_mem : ∀ {l : List ℚ} {x : ℚ}, x ∈ l → qmin l ≤ x := by
  intro l
  induction l with
  | nil => intro x hx; simp at hx
  | cons y rest ih =>
    intro x hx
    cases rest with
    | nil => simp at hx; simp [qmin, hx]
    | cons z rest2 =>
      rcases List.mem_cons.1 hx with h1 | h1
      · subst h1; exact min_le_left _ _
      · exact le_trans (min_le_right _ _) (ih h1)

theorem le_qmax_of_mem : ∀ {l : List ℚ} {x : ℚ}, x ∈ l → x ≤ qmax l := by
  intro l
  induction l with
  | nil => intro x hx; simp at hx
  | cons y rest ih =>
    intro x hx
    cases rest with
    | nil => simp at hx; simp [qmax, hx]
    | cons z rest2 =>
      rcases List.mem_cons.1 hx with h1 | h1
      · subst h1; exact le_max_left _ _
      · exact le_trans (ih h1) (le_max_right _ _)

theorem list_sum_le_length_mul {l : List ℚ} {c : ℚ} (h : ∀ x ∈ l, x ≤ c) :
    l.sum ≤ (l.length : ℚ) * c := by
  induction l with
  | nil => simp
  | cons y rest ih =>
    have hy : y ≤ c := h y (List.mem_cons_self ..)
    have hr : rest.sum ≤ (rest.length : ℚ) * c :=
      ih (fun x hx => h x (List.mem_cons_of_mem _ hx))
    simp only [List.sum_cons, List.length_cons]
    push_cast
    linarith

theorem length_mul_le_list_sum {l : List ℚ} {c : ℚ} (h : ∀ x ∈ l, c ≤ x) :
    (l.length : ℚ) * c ≤ l.sum := by
  induction l with
  | nil => simp
  | cons y rest ih =>
    have hy : c ≤ y := h y (List.mem_cons_self ..)
    have hr : (rest.length : ℚ) * c ≤ rest.sum :=
      ih (fun x hx => h x (List.mem_cons_of_mem _ hx))
    simp only [List.sum_cons, List.length_cons]
    push_cast
    linarith

theorem qmean_between {l : List ℚ} (hne : l ≠ []) :
    qmin l ≤ qmean l ∧ qmean l ≤ qmax l := by
  have hlen : 0 < (l.length : ℚ) := by
    have := List.length_pos.2 hne
    exact_mod_cast this
  constructor
  · rw [qmean, le_div_iff₀ hlen]
    calc (qmin l) * (l.length : ℚ) = (l.length : ℚ) * qmin l := by ring
    _ ≤ l.sum := length_mul_le_list_sum (fun x hx => qmin_le_of_mem hx)
  · rw [qmean, div_le_iff₀ hlen]
    calc l.sum ≤ (l.length : ℚ) * qmax l :=
          list_sum_le_length_mul (fun x hx => le_qmax_of_mem hx)
    _ = qmax l * (l.length : ℚ) := by ring

theorem popVar_nonneg (l : List ℚ) : 0 ≤ popVar l := by
  unfold popVar
  apply div_nonneg
  · apply List.sum_nonneg
    intro x hx
    obtain ⟨y, _, rfl⟩ := List.mem_map.1 hx
    positivity
  · positivity

theorem list_sum_all_eq {l : List ℚ} {c : ℚ} (h : ∀ x ∈ l, x = c) :
    l.sum = (l.length : ℚ) * c := by
  induction l with
  | nil => simp
  | cons y rest ih =>
    have hy := h y (List.mem_cons_self ..)
    have hr := ih (fun x hx => h x (List.mem_cons_of_mem _ hx))
    simp only [List.sum_cons, List.length_cons]
    push_cast
    linarith

theorem qmean_all_eq {l : List ℚ} {c : ℚ} (hne : l ≠ []) (h : ∀ x ∈ l, x = c) :
    qmean l = c := by
  have hlen : 0 < (l.length : ℚ) := by
    have := List.length_pos.2 hne
    exact_mod_cast this
  rw [qmean, list_sum_all_eq h, mul_comm, mul_div_assoc, div_self (ne_of_gt hlen),
    mul_one]

theorem popVar_all_eq {l : List ℚ} {c : ℚ} (h : ∀ x ∈ l, x = c) :
    popVar l = 0 := by
  rcases eq_or_ne l [] with hl | hl
  · subst hl; simp [popVar, qmean]
  · unfold popVar
    have hz : (l.map (fun x => (x - qmean l) ^ 2)).sum = 0 := by
      apply List.sum_eq_zero
      intro x hx
      obtain ⟨y, hy, rfl⟩ := List.mem_map.1 hx
      rw [h y hy, qmean_all_eq hl h]
      ring
    rw [hz, zero_div]

theorem lookup_filterMap {β : Type} (f : String → Option (String × β))
    (hf : ∀ p r, f p = some r → r.1 = p) :
    ∀ (l : List String) (k : String) (st : β),
      lookup (l.filterMap f) k = some st → k ∈ l ∧ f k = some (k, st) := by
  intro l
  induction l with
  | nil => intro k st h; simp [List.filterMap_nil, lookup] at h
  | cons p rest ih =>
    intro k st h
    rw [List.filterMap_cons] at h
    cases hf1 : f p with
    | none =>
      rw [hf1] at h
      obtain ⟨hk, h2⟩ := ih k st h
      exact ⟨List.mem_cons_of_mem _ hk, h2⟩
    | some r =>
      rw [hf1] at h
      dsimp only [] at h
      obtain ⟨rk, rv⟩ := r
      have hr : rk = p := hf p (rk, rv) hf1
      subst hr
      rw [lookup] at h
      by_cases hpk : rk = k
      · rw [if_pos hpk] at h
        subst hpk
        obtain rfl := Option.some.inj h
        exact ⟨List.mem_cons_self .., hf1⟩
      · rw [if_neg hpk] at h
        obtain ⟨hk, h2⟩ := ih k st h
        exact ⟨List.mem_cons_of_mem _ hk, h2⟩

theorem lookup_filterMap_of_mem {β : Type} (f : String → Option (String × β))
    (hf : ∀ p r, f p = some r → r.1 = p) :
    ∀ (l : List String) (k : String) (st : β), l.Nodup → k ∈ l →
      f k = some (k, st) → lookup (l.filterMap f) k = some st := by
  intro l
  induction l with
  | nil => intro k st _ hk; simp at hk
  | cons p rest ih =>
    intro k st hnd hk hfk
    rw [List.filterMap_cons]
    rw [List.nodup_cons] at hnd
    rcases List.mem_cons.1 hk with h1 | h1
    · subst h1
      rw [hfk, lookup, if_pos rfl]
    · have hpk : p ≠ k := fun hEq => hnd.1 (hEq ▸ h1)
      cases hf1 : f p with
      | none => exact ih k st hnd.2 h1 hfk
      | some r =>
        have hr : r.1 = p := hf p r hf1
        obtain ⟨rk, rv⟩ := r
        cases hr
        rw [lookup, if_neg hpk]
        exact ih k st hnd.2 h1 hfk

theorem create_profile_keyfun {tracks : List FeatDict} :
    ∀ (p : String) (r : String × ProfileStat),
      (fun p =>
        let vs := collectValues tracks p
        if vs = [] then Option.none
        else some (p, (⟨qmean vs, popVar vs, qmin vs, qmax vs⟩ : ProfileStat))) p =
        some r → r.1 = p := by
  intro p r hr
  dsimp only [] at hr
  split at hr
  · cases hr
  · obtain rfl := Option.some.inj hr
    rfl

theorem create_profile_lookup {tracks : List FeatDict} {k : String}
    {st : ProfileStat} (h : lookup (create_profile tracks) k = some st) :
    k ∈ allParams tracks ∧ collectValues tracks k ≠ [] ∧
      st = ⟨qmean (collectValues tracks k), popVar (collectValues tracks k),
            qmin (collectValues tracks k), qmax (collectValues tracks k)⟩ := by
  unfold create_profile at h
  by_cases ht : tracks = []
  · rw [if_pos ht] at h
    simp [lookup] at h
  · rw [if_neg ht] at h
    obtain ⟨hk, hfk⟩ :=
      lookup_filterMap _ create_profile_keyfun (allParams tracks) k st h
    dsimp only [] at hfk
    split at hfk
    · cases hfk
    · rename_i hne
      obtain ⟨-, hst⟩ := Prod.mk.injEq .. ▸ Option.some.inj hfk
      exact ⟨hk, hne, hst.symm⟩

theorem create_profile_lookup_of_mem {tracks : List FeatDict} {k : String}
    (hk : k ∈ allParams tracks) (hne : collectValues tracks k ≠ [])
    (ht : tracks ≠ []) :
    lookup (create_profile tracks) k =
      some ⟨qmean (collectValues tracks k), popVar (collectValues tracks k),
            qmin (collectValues tracks k), qmax (collectValues tracks k)⟩ := by
  unfold create_profile
  rw [if_neg ht]
  apply lookup_filterMap_of_mem _ create_profile_keyfun _ k _
    (List.nodup_dedup _) hk
  dsimp only []
  rw [if_neg hne]

theorem mem_allParams {tracks : List FeatDict} {k : String} :
    k ∈ allParams tracks ↔
      (k ≠ "filename" ∧ k ≠ "key" ∧ ∃ t ∈ tracks, ∃ q, (k, PyVal.num q) ∈ t) := by
  unfold allParams
  rw [List.mem_dedup, List.mem_flatMap]
  constructor
  · rintro ⟨t, ht, hk⟩
    rw [List.mem_filterMap] at hk
    obtain ⟨kv, hkv, hfkv⟩ := hk
    by_cases hc : kv.1 ≠ "filename" ∧ kv.1 ≠ "key" ∧ isNumB kv.2
    · rw [if_pos hc] at hfkv
      obtain ⟨hc1, hc2, hc3⟩ := hc
      have hkEq : kv.1 = k := Option.some.inj hfkv
      subst hkEq
      refine ⟨hc1, hc2, t, ht, ?_⟩
      obtain ⟨k1, v1⟩ := kv
      cases v1 with
      | num q => exact ⟨q, hkv⟩
      | str s => simp [isNumB] at hc3
      | none => simp [isNumB] at hc3
    · rw [if_neg hc] at hfkv
      cases hfkv
  · rintro ⟨h1, h2, t, ht, q, hq⟩
    refine ⟨t, ht, List.mem_filterMap.2 ⟨(k, PyVal.num q), hq, ?_⟩⟩
    rw [if_pos ⟨h1, h2, by simp [isNumB]⟩]

theorem collectValues_ne_nil {tracks : List FeatDict} {k : String}
    (hnd : ∀ t ∈ tracks, (t.map Prod.fst).Nodup)
    (h : ∃ t ∈ tracks, ∃ q, (k, PyVal.num q) ∈ t) :
    collectValues tracks k ≠ [] := by
  obtain ⟨t, ht, q, hq⟩ := h
  have hmem : q ∈ collectValues tracks k := by
    unfold collectValues
    refine List.mem_filterMap.2 ⟨t, ht, ?_⟩
    rw [lookup_eq_of_mem_nodup (hnd t ht) hq]
    rfl
  intro hnil
  rw [hnil] at hmem
  simp at hmem

/-- C7 counterexample: `float("130")` succeeds, so the numeric *string*
`"130"` is converted and counted by the profile builder, contradicting the
claim that non-numeric values are skipped: the stored mean is 125, not the
mean (120) of the actual numeric values. -/
theorem c7_counterexample :
    lookup (create_profile [[("bpm", PyVal.num 120)], [("bpm", PyVal.str "130")]])
        "bpm" = some ⟨125, 25, 120, 130⟩ ∧
    qmean (collectNumericValues [[("bpm", PyVal.num 120)], [("bpm", PyVal.str "130")]]
        "bpm") = 120 ∧
    (125 : ℚ) ≠ 120 := by
  refine ⟨?_, ?_, by norm_num⟩
  · with_unfolding_all decide
  · with_unfolding_all decide

/-- C7 amended: the builder maps the empty collection to the empty profile,
and for duplicate-free track dicts it stores a statistic for exactly those
keys (other than `filename` and `key`) holding an `int`/`float` value in at
least one track; the collected values are every present, non-`None`,
`float`-convertible value — numeric strings included — and the stored
statistic is their mean, population variance (squared std), min and max. -/
theorem c7_amended :
    create_profile [] = [] ∧
    ∀ (tracks : List FeatDict) (k : String) (st : ProfileStat),
      (∀ t ∈ tracks, (t.map Prod.fst).Nodup) →
      (lookup (create_profile tracks) k = some st ↔
        (k ≠ "filename" ∧ k ≠ "key" ∧
         (∃ t ∈ tracks, ∃ q, (k, PyVal.num q) ∈ t) ∧
         st = ⟨qmean (collectValues tracks k), popVar (collectValues tracks k),
               qmin (collectValues tracks k), qmax (collectValues tracks k)⟩)) := by
  refine ⟨rfl, ?_⟩
  intro tracks k st hnd
  constructor
  · intro h
    obtain ⟨hk, hne, hst⟩ := create_profile_lookup h
    obtain ⟨h1, h2, hex⟩ := mem_allParams.1 hk
    exact ⟨h1, h2, hex, hst⟩
  · rintro ⟨h1, h2, hex, rfl⟩
    have hk : k ∈ allParams tracks := mem_allParams.2 ⟨h1, h2, hex⟩
    have hne : collectValues tracks k ≠ [] := collectValues_ne_nil hnd hex
    have ht : tracks ≠ [] := by
      obtain ⟨t, ht1, -⟩ := hex
      exact List.ne_nil_of_mem ht1
    exact create_profile_lookup_of_mem hk hne ht

/-- Witness for C7 amended: the mixed numeric/numeric-string fixture. -/
theorem c7_amended_witness :
    lookup (create_profile [[("bpm", PyVal.num 120)], [("bpm", PyVal.str "130")]])
        "bpm" =
      some ⟨qmean (collectValues [[("bpm", PyVal.num 120)],
                                  [("bpm", PyVal.str "130")]] "bpm"),
            popVar (collectValues [[("bpm", PyVal.num 120)],
                                   [("bpm", PyVal.str "130")]] "bpm"),
            qmin (collectValues [[("bpm", PyVal.num 120)],
                                 [("bpm", PyVal.str "130")]] "bpm"),
            qmax (collectValues [[("bpm", PyVal.num 120)],
                                 [("bpm", PyVal.str "130")]] "bpm")⟩ :=
  (c7_amended.2 [[("bpm", PyVal.num 120)], [("bpm", PyVal.str "130")]] "bpm" _
      (by decide)).2
    ⟨by decide, by decide,
     ⟨[("bpm", PyVal.num 120)], by decide, 120, by decide⟩, rfl⟩

/-- C10 (confirmed): every statistic stored by the profile builder has a
nonnegative variance — hence a nonnegative standard deviation `√var`, which
is 0 when all collected values are identical — and satisfies
`min ≤ mean ≤ max`. -/
theorem c10_profile_invariants (tracks : List FeatDict) (k : String)
    (st : ProfileStat) (h : lookup (create_profile tracks) k = some st) :
    0 ≤ st.var ∧ 0 ≤ ProfileStat.std st ∧ st.min ≤ st.mean ∧ st.mean ≤ st.max ∧
      ((∀ x ∈ collectValues tracks k, ∀ y ∈ collectValues tracks k, x = y) →
        st.var = 0) := by
  obtain ⟨-, hne, rfl⟩ := create_profile_lookup h
  refine ⟨popVar_nonneg _, Real.sqrt_nonneg _, (qmean_between hne).1,
    (qmean_between hne).2, ?_⟩
  intro hall
  obtain ⟨v0, hv0⟩ := List.exists_mem_of_ne_nil _ hne
  exact popVar_all_eq (fun x hx => hall x hx v0 hv0)

/-- Witness for C10 at the concrete two-track fixture. -/
theorem c10_profile_invariants_witness :
    0 ≤ (ProfileStat.mk 125 25 120 130).var ∧
    0 ≤ ProfileStat.std ⟨125, 25, 120, 130⟩ ∧
    (ProfileStat.mk 125 25 120 130).min ≤ (ProfileStat.mk 125 25 120 130).mean ∧
    (ProfileStat.mk 125 25 120 130).mean ≤ (ProfileStat.mk 125 25 120 130).max ∧
    ((∀ x ∈ collectValues [[("bpm", PyVal.num 120)], [("bpm", PyVal.str "130")]]
          "bpm",
        ∀ y ∈ collectValues [[("bpm", PyVal.num 120)], [("bpm", PyVal.str "130")]]
          "bpm", x = y) →
      (ProfileStat.mk 125 25 120 130).var = 0) :=
  c10_profile_invariants [[("bpm", PyVal.num 120)], [("bpm", PyVal.str "130")]]
    "bpm" ⟨125, 25, 120, 130⟩ (by with_unfolding_all decide)

/-! ### C4: atomicity of fit -/

/-- C4 counterexample: after a successful fit on `[refA, refB]`, a failed
fit on two malformed vectors reports `False` but *overwrites* the stored
reference vectors (playlist_gatekeeper.py line 204 assigns
`self.playlist_features` before the conversion that raises), so the failed
fit does not leave the prior fitted state unchanged. -/
theorem c4_counterexample :
    (fit_playlist initState [refA, refB]).1 = true ∧
    (fit_playlist (fit_playlist initState [refA, refB]).2 [badA, badB]).1 =
      false ∧
    (fit_playlist (fit_playlist initState [refA, refB]).2
        [badA, badB]).2.playlist_features = some [badA, badB] ∧
    (fit_playlist initState [refA, refB]).2.playlist_features =
      some [refA, refB] ∧
    (fit_playlist (fit_playlist initState [refA, refB]).2 [badA, badB]).2 ≠
      (fit_playlist initState [refA, refB]).2 := by
  refine ⟨by decide, by decide, by decide, by decide, ?_⟩
  intro hEq
  have h1 : (fit_playlist (fit_playlist initState [refA, refB]).2
      [badA, badB]).2.playlist_features = some [badA, badB] := by decide
  have h2 : (fit_playlist initState [refA, refB]).2.playlist_features =
      some [refA, refB] := by decide
  rw [hEq, h2] at h1
  exact absurd (Option.some.inj h1) (by decide)

/-- C4 amended: a fit attempt with fewer than 2 reference vectors fails and
leaves the state exactly unchanged; a fit attempt with ≥ 2 but malformed
vectors fails and keeps the prior scaler and nearest-neighbour model but
*replaces* the stored reference vectors with the new (malformed) list —
fit is not atomic in that case. -/
theorem c4_amended :
    (∀ (s : GKState) (pf : List Feat), pf.length < 2 →
        fit_playlist s pf = (false, s)) ∧
    (∀ (s : GKState) (pf : List Feat), 2 ≤ pf.length →
        features_to_matrix pf = Option.none →
        fit_playlist s pf = (false, { s with playlist_features := some pf })) := by
  constructor
  · intro s pf h
    unfold fit_playlist
    rw [if_pos h]
  · intro s pf h hm
    unfold fit_playlist
    rw [if_neg (by omega), hm]

/-- Witness for C4 amended at concrete inputs. -/
theorem c4_amended_witness :
    fit_playlist initState [refA] = (false, initState) ∧
    fit_playlist initState [badA, badB] =
      (false, { initState with playlist_features := some [badA, badB] }) :=
  ⟨c4_amended.1 initState [refA] (by decide),
   c4_amended.2 initState [badA, badB] (by decide) (by decide)⟩

/-! ### C9: check before fit -/

/-- C9 (confirmed): a Gatekeeper on which no fit ever succeeded still has
`scaler = None` and `nn_model = None` — failed fits never touch those two
fields, and the fresh instance starts with them `None` — and `check_track`
on such an instance returns the structured NotFitted error rather than
raising; an internal fault inside a fitted check (a candidate missing a
Golden-8 key) is likewise caught and returned as a structured error. -/
theorem c9_not_fitted :
    (∀ (s : GKState) (user : Feat),
        s.scaler = Option.none ∨ s.nn_model = Option.none →
        check_track s user = .error .notFitted) ∧
    (∀ (s : GKState) (pf : List Feat), (fit_playlist s pf).1 = false →
        (fit_playlist s pf).2.scaler = s.scaler ∧
        (fit_playlist s pf).2.nn_model = s.nn_model) ∧
    initState.scaler = Option.none ∧ initState.nn_model = Option.none ∧
    (∀ (s : GKState) (user : Feat), s.scaler ≠ Option.none →
        s.nn_model ≠ Option.none → feature_dict_to_array user = Option.none →
        check_track s user = .error .internal) := by
  refine ⟨?_, ?_, rfl, rfl, ?_⟩
  · intro s user h
    unfold check_track
    cases hsc : s.scaler with
    | none => rfl
    | some sc =>
      cases hnn : s.nn_model with
      | none => rfl
      | some nn =>
        rcases h with h | h
        · rw [hsc] at h; exact (Option.some_ne_none _ h).elim
        · rw [hnn] at h; exact (Option.some_ne_none _ h).elim
  · intro s pf h
    unfold fit_playlist at h ⊢
    by_cases hl : pf.length < 2
    · rw [if_pos hl]
      exact ⟨rfl, rfl⟩
    · rw [if_neg hl] at h ⊢
      cases hm : features_to_matrix pf with
      | none => exact ⟨rfl, rfl⟩
      | some m => rw [hm] at h; simp at h
  · intro s user h1 h2 hu
    unfold check_track
    cases hsc : s.scaler with
    | none => exact absurd hsc h1
    | some sc =>
      cases hnn : s.nn_model with
      | none => exact absurd hnn h2
      | some nn =>
        dsimp only []
        rw [hu]

/-- Witness for C9 at concrete inputs: check on the fresh instance, state
preservation under a failed fit, and the caught internal fault on a fitted
instance given an empty candidate. -/
theorem c9_not_fitted_witness :
    check_track initState [] = .error .notFitted ∧
    ((fit_playlist initState [refA]).2.scaler = initState.scaler ∧
     (fit_playlist initState [refA]).2.nn_model = initState.nn_model) ∧
    check_track (fit_playlist initState [refA, refB]).2 [] = .error .internal :=
  ⟨c9_not_fitted.1 initState [] (Or.inl rfl),
   c9_not_fitted.2.1 initState [refA] (by decide),
   c9_not_fitted.2.2.2.2 (fit_playlist initState [refA, refB]).2 []
     (by decide) (by decide) (by decide)⟩

/-! ### C5: nearest-reference selection -/

theorem argminIdx_cons_cons (d e : ℝ) (rest : List ℝ) :
    argminIdx (d :: e :: rest) =
      if d ≤ (e :: rest).getD (argminIdx (e :: rest)) 0 then 0
      else argminIdx (e :: rest) + 1 := rfl

theorem argminIdx_lt : ∀ {ds : List ℝ}, ds ≠ [] → argminIdx ds < ds.length := by
  intro ds
  induction ds with
  | nil => intro h; exact absurd rfl h
  | cons d tail ih =>
    intro _
    cases tail with
    | nil => simp [argminIdx]
    | cons e rest =>
      rw [argminIdx_cons_cons]
      by_cases hle : d ≤ (e :: rest).getD (argminIdx (e :: rest)) 0
      · rw [if_pos hle]
        simp
      · rw [if_neg hle]
        have := ih (by simp)
        simpa using Nat.succ_lt_succ this

theorem argminIdx_min :
    ∀ (ds : List ℝ), ∀ j < ds.length,
      ds.getD (argminIdx ds) 0 ≤ ds.getD j 0 := by
  intro ds
  induction ds with
  | nil => intro j hj; simp at hj
  | cons d tail ih =>
    intro j hj
    cases tail with
    | nil =>
      have hj0 : j = 0 := Nat.lt_one_iff.1 (by simpa using hj)
      subst hj0
      simp [argminIdx]
    | cons e rest =>
      rw [argminIdx_cons_cons]
      by_cases hle : d ≤ (e :: rest).getD (argminIdx (e :: rest)) 0
      · rw [if_pos hle]
        cases j with
        | zero => simp
        | succ j1 =>
          rw [List.getD_cons_zero, List.getD_cons_succ]
          exact le_trans hle (ih j1 (by simpa using hj))
      · rw [if_neg hle]
        push_neg at hle
        cases j with
        | zero =>
          rw [List.getD_cons_succ, List.getD_cons_zero]
          exact le_of_lt hle
        | succ j1 =>
          rw [List.getD_cons_succ, List.getD_cons_succ]
          exact ih j1 (by simpa using hj)

theorem argminIdx_first :
    ∀ (ds : List ℝ), ∀ j < argminIdx ds,
      ds.getD (argminIdx ds) 0 < ds.getD j 0 := by
  intro ds
  induction ds with
  | nil => intro j hj; simp [argminIdx] at hj
  | cons d tail ih =>
    intro j hj
    cases tail with
    | nil => simp [argminIdx] at hj
    | cons e rest =>
      rw [argminIdx_cons_cons] at hj ⊢
      by_cases hle : d ≤ (e :: rest).getD (argminIdx (e :: rest)) 0
      · rw [if_pos hle] at hj
        simp at hj
      · rw [if_neg hle] at hj ⊢
        push_neg at hle
        cases j with
        | zero =>
          rw [List.getD_cons_succ, List.getD_cons_zero]
          exact hle
        | succ j1 =>
          rw [List.getD_cons_succ, List.getD_cons_succ]
          exact ih j1 (by simpa using hj)

theorem lookupAll_mem {d : Feat} :
    ∀ {ks : List String} {vs : List ℚ}, lookupAll d ks = some vs →
      ∀ k ∈ ks, ∃ v, lookup d k = some v := by
  intro ks
  induction ks with
  | nil => intro vs _ k hk; simp at hk
  | cons k1 rest ih =>
    intro vs h k hk
    rw [lookupAll] at h
    cases h1 : lookup d k1 with
    | none => rw [h1] at h; cases h
    | some v1 =>
      rw [h1] at h
      cases h2 : lookupAll d rest with
      | none => rw [h2] at h; cases h
      | some vs1 =>
        rcases List.mem_cons.1 hk with hEq | hmem
        · exact ⟨v1, hEq ▸ h1⟩
        · exact ih h2 k hmem

theorem features_to_matrix_length :
    ∀ {R : List Feat} {m : List (List ℚ)}, features_to_matrix R = some m →
      m.length = R.length := by
  intro R
  induction R with
  | nil => intro m h; cases h; rfl
  | cons f rest ih =>
    intro m h
    rw [features_to_matrix] at h
    cases h1 : feature_dict_to_array f with
    | none => rw [h1] at h; cases h
    | some r =>
      rw [h1] at h
      cases h2 : features_to_matrix rest with
      | none => rw [h2] at h; cases h
      | some m1 =>
        rw [h2] at h
        obtain rfl := Option.some.inj h
        simp [ih h2]

theorem features_to_matrix_get :
    ∀ {R : List Feat} {m : List (List ℚ)}, features_to_matrix R = some m →
      ∀ {i : ℕ} {r : Feat}, R.get? i = some r →
        ∃ row, m.get? i = some row ∧ feature_dict_to_array r = some row := by
  intro R
  induction R with
  | nil => intro m _ i r hr; simp at hr
  | cons f rest ih =>
    intro m h i r hr
    rw [features_to_matrix] at h
    cases h1 : feature_dict_to_array f with
    | none => rw [h1] at h; cases h
    | some row0 =>
      rw [h1] at h
      cases h2 : features_to_matrix rest with
      | none => rw [h2] at h; cases h
      | some m1 =>
        rw [h2] at h
        obtain rfl := Option.some.inj h
        cases i with
        | zero =>
          obtain rfl := Option.some.inj hr
          exact ⟨row0, rfl, h1⟩
        | succ i1 => exact ih h2 hr

theorem calculate_weighted_z_scores_ok {user ref : Feat} :
    ∀ (ks : List String) (stds : List ℝ),
      (∀ k ∈ ks, ∃ v, lookup user k = some v) →
      (∀ k ∈ ks, ∃ v, lookup ref k = some v) →
      ∃ t, calculate_weighted_z_scores user ref ks stds = some t ∧
        t.map Prod.fst = ks := by
  intro ks
  induction ks with
  | nil => intro stds _ _; exact ⟨[], rfl, rfl⟩
  | cons k1 rest ih =>
    intro stds hu hr
    obtain ⟨uv, huv⟩ := hu k1 (List.mem_cons_self ..)
    obtain ⟨rv, hrv⟩ := hr k1 (List.mem_cons_self ..)
    obtain ⟨t1, ht1, hkeys⟩ := ih stds.tail
      (fun k hk => hu k (List.mem_cons_of_mem _ hk))
      (fun k hk => hr k (List.mem_cons_of_mem _ hk))
    have hres : calculate_weighted_z_scores user ref (k1 :: rest) stds =
        some ((k1, ⟨uv, rv,
          (if 0 < stds.headD 0 then ((uv : ℝ) - (rv : ℝ)) / stds.headD 0 else 0),
          (if 0 < stds.headD 0 then ((uv : ℝ) - (rv : ℝ)) / stds.headD 0 else 0) *
            (FEATURE_WEIGHTS k1 : ℝ),
          FEATURE_WEIGHTS k1⟩) :: t1) := by
      rw [calculate_weighted_z_scores, huv, hrv, ht1]
      rfl
    exact ⟨_, hres, by simp [hkeys]⟩

theorem lookup_isSome_of_key_mem {α : Type} :
    ∀ {l : List (String × α)} {k : String}, k ∈ l.map Prod.fst →
      ∃ v, lookup l k = some v := by
  intro l
  induction l with
  | nil => intro k hk; simp at hk
  | cons p rest ih =>
    intro k hk
    obtain ⟨p1, p2⟩ := p
    by_cases hEq : p1 = k
    · exact ⟨p2, by simp [lookup, hEq]⟩
    · rw [List.map_cons, List.mem_cons] at hk
      rcases hk with h1 | h1
      · exact absurd h1.symm hEq
      · obtain ⟨v, hv⟩ := ih h1
        exact ⟨v, by simp only [lookup, if_neg hEq]; exact hv⟩

theorem fit_success_elim {s0 : GKState} {R : List Feat}
    (h : (fit_playlist s0 R).1 = true) :
    ∃ m, features_to_matrix R = some m ∧ 2 ≤ R.length ∧
      (fit_playlist s0 R).2 =
        ⟨some (colMeans m, colVars m), some R,
         some ⟨colMeans m, colVars m, m⟩⟩ := by
  unfold fit_playlist at h ⊢
  by_cases hl : R.length < 2
  · rw [if_pos hl] at h
    simp at h
  · rw [if_neg hl] at h ⊢
    cases hm : features_to_matrix R with
    | none => rw [hm] at h; simp at h
    | some m => exact ⟨m, rfl, by omega, rfl⟩

theorem getD_map_of_lt {α β : Type} (f : α → β) (fb : β) (dfl : α) :
    ∀ (l : List α) (j : ℕ), j < l.length →
      (l.map f).getD j fb = f (l.getD j dfl) := by
  intro l
  induction l with
  | nil => intro j hj; simp at hj
  | cons x rest ih =>
    intro j hj
    cases j with
    | zero => simp
    | succ j1 => simpa using ih j1 (by simpa using hj)

/-- C5 (confirmed): after a successful fit on reference set `R`, checking a
candidate holding all Golden-8 keys succeeds, and the selected nearest
reference is the element of `R` whose standardised row minimises the
Euclidean distance to the standardised candidate, with equal-distance ties
resolved to the lowest original index (every strictly smaller index has
strictly larger distance). -/
theorem c5_nearest (s0 : GKState) (R : List Feat) (C : Feat) (c : List ℚ)
    (hfit : (fit_playlist s0 R).1 = true)
    (hc : feature_dict_to_array C = some c) :
    ∃ (m : List (List ℚ)) (rep : Report),
      features_to_matrix R = some m ∧
      check_track (fit_playlist s0 R).2 C = .ok rep ∧
      rep.nearestIdx < R.length ∧
      R.get? rep.nearestIdx = some rep.nearest_reference ∧
      (∀ j, j < R.length →
        euclDist (scaleRow (colMeans m) (colVars m) c)
            (scaleRow (colMeans m) (colVars m) (m.getD rep.nearestIdx [])) ≤
          euclDist (scaleRow (colMeans m) (colVars m) c)
            (scaleRow (colMeans m) (colVars m) (m.getD j []))) ∧
      (∀ j, j < rep.nearestIdx →
        euclDist (scaleRow (colMeans m) (colVars m) c)
            (scaleRow (colMeans m) (colVars m) (m.getD rep.nearestIdx [])) <
          euclDist (scaleRow (colMeans m) (colVars m) c)
            (scaleRow (colMeans m) (colVars m) (m.getD j []))) := by
  obtain ⟨m, hm, hlen2, hstate⟩ := fit_success_elim hfit
  rw [hstate]
  have hmlen : m.length = R.length := features_to_matrix_length hm
  have hdslen :
      (m.map (fun r => euclDist (scaleRow (colMeans m) (colVars m) c)
        (scaleRow (colMeans m) (colVars m) r))).length = R.length := by
    rw [List.length_map, hmlen]
  have hdsne :
      m.map (fun r => euclDist (scaleRow (colMeans m) (colVars m) c)
        (scaleRow (colMeans m) (colVars m) r)) ≠ [] := by
    intro hnil
    rw [hnil] at hdslen
    simp at hdslen
    omega
  have hidx :
      argminIdx (m.map (fun r => euclDist (scaleRow (colMeans m) (colVars m) c)
        (scaleRow (colMeans m) (colVars m) r))) < R.length := by
    rw [← hdslen]
    exact argminIdx_lt hdsne
  obtain ⟨nref, hnref⟩ : ∃ r, R.get? (argminIdx (m.map
      (fun r => euclDist (scaleRow (colMeans m) (colVars m) c)
        (scaleRow (colMeans m) (colVars m) r)))) = some r :=
    ⟨_, List.get?_eq_get hidx⟩
  obtain ⟨row, hrowget, hrowArr⟩ := features_to_matrix_get hm hnref
  obtain ⟨t, ht, hkeys⟩ :=
    @calculate_weighted_z_scores_ok C nref golden8
      ((colVars m).map (fun x => Real.sqrt (x : ℝ)))
      (lookupAll_mem hc) (lookupAll_mem hrowArr)
  obtain ⟨be, hbe⟩ := lookup_isSome_of_key_mem (l := t) (k := "beat_strength")
    (by rw [hkeys]; decide)
  obtain ⟨oe, hoe⟩ := lookup_isSome_of_key_mem (l := t) (k := "onset_rate")
    (by rw [hkeys]; decide)
  obtain ⟨al, hal⟩ : ∃ al, identify_critical_alerts t = some al := by
    unfold identify_critical_alerts
    rw [hbe, hoe]
    exact ⟨_, rfl⟩
  have hcheck : check_track
      ⟨some (colMeans m, colVars m), some R, some ⟨colMeans m, colVars m, m⟩⟩ C =
      .ok ⟨C, nref, argminIdx (m.map
        (fun r => euclDist (scaleRow (colMeans m) (colVars m) c)
          (scaleRow (colMeans m) (colVars m) r))), t, al⟩ := by
    unfold check_track
    dsimp only []
    rw [hc]
    dsimp only [kneighborsIdx, Option.some_bind]
    rw [hnref]
    dsimp only []
    rw [hm]
    dsimp only []
    rw [ht]
    dsimp only []
    rw [hal]
  refine ⟨m, _, hm, hcheck, hidx, hnref, ?_, ?_⟩
  · intro j hj
    have h1 := argminIdx_min (m.map (fun r =>
      euclDist (scaleRow (colMeans m) (colVars m) c)
        (scaleRow (colMeans m) (colVars m) r))) j (by rw [hdslen]; exact hj)
    rwa [getD_map_of_lt _ 0 [] m _ (by rw [hmlen]; exact hidx),
      getD_map_of_lt _ 0 [] m j (by rw [hmlen]; exact hj)] at h1
  · intro j hj
    have hjR : j < R.length := lt_trans hj hidx
    have h1 := argminIdx_first (m.map (fun r =>
      euclDist (scaleRow (colMeans m) (colVars m) c)
        (scaleRow (colMeans m) (colVars m) r))) j hj
    rwa [getD_map_of_lt _ 0 [] m _ (by rw [hmlen]; exact hidx),
      getD_map_of_lt _ 0 [] m j (by rw [hmlen]; exact hjR)] at h1

/-- Witness for C5 at the concrete two-reference fixture. -/
theorem c5_nearest_witness :
    ∃ (m : List (List ℚ)) (rep : Report),
      features_to_matrix [refA, refB] = some m ∧
      check_track (fit_playlist initState [refA, refB]).2 candU = .ok rep ∧
      rep.nearestIdx < ([refA, refB] : List Feat).length ∧
      ([refA, refB] : List Feat).get? rep.nearestIdx =
        some rep.nearest_reference ∧
      (∀ j, j < ([refA, refB] : List Feat).length →
        euclDist (scaleRow (colMeans m) (colVars m) [0, 2, 0, 0, 0, 0, 0, 0])
            (scaleRow (colMeans m) (colVars m) (m.getD rep.nearestIdx [])) ≤
          euclDist (scaleRow (colMeans m) (colVars m) [0, 2, 0, 0, 0, 0, 0, 0])
            (scaleRow (colMeans m) (colVars m) (m.getD j []))) ∧
      (∀ j, j < rep.nearestIdx →
        euclDist (scaleRow (colMeans m) (colVars m) [0, 2, 0, 0, 0, 0, 0, 0])
            (scaleRow (colMeans m) (colVars m) (m.getD rep.nearestIdx [])) <
          euclDist (scaleRow (colMeans m) (colVars m) [0, 2, 0, 0, 0, 0, 0, 0])
            (scaleRow (colMeans m) (colVars m) (m.getD j []))) :=
  c5_nearest initState [refA, refB] candU [0, 2, 0, 0, 0, 0, 0, 0]
    (by decide) (by decide)

/-! ### C1: warning alerts -/

/-- C1 amended: in the alert list, every Golden-8 feature *other than*
`beat_strength` and `onset_rate` with `|weighted_z| > 1.5` contributes a
WARNING line, while `beat_strength` and `onset_rate` never contribute any
alert unless their `|weighted_z|` strictly exceeds the 2.0 CRITICAL
threshold — in the band (1.5, 2.0] they produce no alert at all. -/
theorem c1_amended (t : List (String × WZEntry)) (al : List Alert)
    (hal : identify_critical_alerts t = some al) :
    (∀ (f : String) (e : WZEntry), (f, e) ∈ t → f ≠ "beat_strength" →
        f ≠ "onset_rate" → (3/2 : ℝ) < |e.weighted_z| →
        (⟨f, .warning, decide (e.weighted_z < 0)⟩ : Alert) ∈ al) ∧
    (∀ be : WZEntry, lookup t "beat_strength" = some be →
        |be.weighted_z| ≤ ((CRITICAL_THRESHOLD : ℚ) : ℝ) →
        ∀ a ∈ al, a.feature ≠ "beat_strength") ∧
    (∀ oe : WZEntry, lookup t "onset_rate" = some oe →
        |oe.weighted_z| ≤ ((CRITICAL_THRESHOLD : ℚ) : ℝ) →
        ∀ a ∈ al, a.feature ≠ "onset_rate") := by
  unfold identify_critical_alerts at hal
  cases hbe : lookup t "beat_strength" with
  | none => rw [hbe] at hal; cases hal
  | some be0 =>
    rw [hbe] at hal
    cases hoe : lookup t "onset_rate" with
    | none => rw [hoe] at hal; cases hal
    | some oe0 =>
      rw [hoe] at hal
      dsimp only [] at hal
      obtain rfl := Option.some.inj hal
      refine ⟨?_, ?_, ?_⟩
      · intro f e hmem hf1 hf2 hgt
        refine List.mem_append.2 (Or.inr ?_)
        exact List.mem_filterMap.2 ⟨(f, e), hmem, by rw [if_pos ⟨hf1, hf2, hgt⟩]⟩
      · intro be hbe1 hle a ha hfeat
        rw [← Option.some.inj hbe1] at hle
        rcases List.mem_append.1 ha with h1 | h1
        · rcases List.mem_append.1 h1 with h2 | h2
          · by_cases hcrit : ((CRITICAL_THRESHOLD : ℚ) : ℝ) < |be0.weighted_z|
            · exact absurd hcrit (not_lt.2 hle)
            · rw [if_neg hcrit] at h2
              simp at h2
          · by_cases hcrit : ((CRITICAL_THRESHOLD : ℚ) : ℝ) < |oe0.weighted_z|
            · rw [if_pos hcrit] at h2
              rw [List.mem_singleton] at h2
              subst h2
              simp at hfeat
            · rw [if_neg hcrit] at h2
              simp at h2
        · obtain ⟨p, hp, hpa⟩ := List.mem_filterMap.1 h1
          by_cases hcond : p.1 ≠ "beat_strength" ∧ p.1 ≠ "onset_rate" ∧
              (3/2 : ℝ) < |p.2.weighted_z|
          · rw [if_pos hcond] at hpa
            obtain rfl := Option.some.inj hpa
            exact hcond.1 hfeat
          · rw [if_neg hcond] at hpa
            cases hpa
      · intro oe hoe1 hle a ha hfeat
        rw [← Option.some.inj hoe1] at hle
        rcases List.mem_append.1 ha with h1 | h1
        · rcases List.mem_append.1 h1 with h2 | h2
          · by_cases hcrit : ((CRITICAL_THRESHOLD : ℚ) : ℝ) < |be0.weighted_z|
            · rw [if_pos hcrit] at h2
              rw [List.mem_singleton] at h2
              subst h2
              simp at hfeat
            · rw [if_neg hcrit] at h2
              simp at h2
          · by_cases hcrit : ((CRITICAL_THRESHOLD : ℚ) : ℝ) < |oe0.weighted_z|
            · exact absurd hcrit (not_lt.2 hle)
            · rw [if_neg hcrit] at h2
              simp at h2
        · obtain ⟨p, hp, hpa⟩ := List.mem_filterMap.1 h1
          by_cases hcond : p.1 ≠ "beat_strength" ∧ p.1 ≠ "onset_rate" ∧
              (3/2 : ℝ) < |p.2.weighted_z|
          · rw [if_pos hcond] at hpa
            obtain rfl := Option.some.inj hpa
            exact hcond.2.1 hfeat
          · rw [if_neg hcond] at hpa
            cases hpa

/-- C1 counterexample: on the concrete fitted gatekeeper over
`[refA, refB]` the candidate's beat_strength weighted z is exactly 2.0 —
inside (1.5, 2.0], not CRITICAL because the threshold is strict — yet the
check result's alert list is empty: no WARNING alert is raised, because the
warning loop skips `beat_strength` and `onset_rate`. -/
theorem c1_counterexample :
    ∃ rep : Report,
      check_track (fit_playlist initState [refA, refB]).2 candU = .ok rep ∧
      (∃ e : WZEntry,
        lookup rep.weighted_z_scores "beat_strength" = some e ∧
        e.weighted_z = 2 ∧ (3/2 : ℝ) < |e.weighted_z| ∧
        ¬ ((CRITICAL_THRESHOLD : ℝ) < |e.weighted_z|)) ∧
      rep.critical_alerts = [] := by
  have hcast9 : ((9 : ℚ) : ℝ) = (9 : ℝ) := by norm_num
  have hs9 : Real.sqrt ((9 : ℚ) : ℝ) = 3 := by
    rw [hcast9, show (9 : ℝ) = (3 : ℝ) ^ 2 by norm_num]
    exact Real.sqrt_sq (by norm_num)
  have hscale0 : scaleOf 0 = 1 := by simp [scaleOf]
  have hscale9 : scaleOf 9 = 3 := by
    rw [scaleOf, if_neg (by norm_num)]
    exact hs9
  have hstate : (fit_playlist initState [refA, refB]).2 =
      ⟨some ([0, 3, 0, 0, 0, 0, 0, 0], [0, 9, 0, 0, 0, 0, 0, 0]),
       some [refA, refB],
       some ⟨[0, 3, 0, 0, 0, 0, 0, 0], [0, 9, 0, 0, 0, 0, 0, 0],
             [[0, 0, 0, 0, 0, 0, 0, 0], [0, 6, 0, 0, 0, 0, 0, 0]]⟩⟩ := by
    with_unfolding_all decide
  have harr : feature_dict_to_array candU = some [0, 2, 0, 0, 0, 0, 0, 0] := by
    decide
  have huS : scaleRow [0, 3, 0, 0, 0, 0, 0, 0] [0, 9, 0, 0, 0, 0, 0, 0]
      [0, 2, 0, 0, 0, 0, 0, 0] = [0, -(1/3 : ℝ), 0, 0, 0, 0, 0, 0] := by
    norm_num [scaleRow, hscale0, hscale9]
  have hrow0 : scaleRow [0, 3, 0, 0, 0, 0, 0, 0] [0, 9, 0, 0, 0, 0, 0, 0]
      [0, 0, 0, 0, 0, 0, 0, 0] = [0, -(1 : ℝ), 0, 0, 0, 0, 0, 0] := by
    norm_num [scaleRow, hscale0, hscale9]
  have hrow1 : scaleRow [0, 3, 0, 0, 0, 0, 0, 0] [0, 9, 0, 0, 0, 0, 0, 0]
      [0, 6, 0, 0, 0, 0, 0, 0] = [0, (1 : ℝ), 0, 0, 0, 0, 0, 0] := by
    norm_num [scaleRow, hscale0, hscale9]
  have hd0 : euclDist [0, -(1/3 : ℝ), 0, 0, 0, 0, 0, 0]
      [0, -(1 : ℝ), 0, 0, 0, 0, 0, 0] = Real.sqrt (4/9) := by
    norm_num [euclDist, distSq]
  have hd1 : euclDist [0, -(1/3 : ℝ), 0, 0, 0, 0, 0, 0]
      [0, (1 : ℝ), 0, 0, 0, 0, 0, 0] = Real.sqrt (16/9) := by
    norm_num [euclDist, distSq]
  have hle0 : Real.sqrt (4/9) ≤
      ([Real.sqrt (16/9)] : List ℝ).getD (argminIdx [Real.sqrt (16/9)]) 0 := by
    rw [show argminIdx [Real.sqrt (16/9)] = 0 from rfl, List.getD_cons_zero]
    exact Real.sqrt_le_sqrt (by norm_num)
  have hargmin : argminIdx [Real.sqrt (4/9), Real.sqrt (16/9)] = 0 := by
    rw [argminIdx_cons_cons, if_pos hle0]
  have hkn : kneighborsIdx
      ⟨[0, 3, 0, 0, 0, 0, 0, 0], [0, 9, 0, 0, 0, 0, 0, 0],
       [[0, 0, 0, 0, 0, 0, 0, 0], [0, 6, 0, 0, 0, 0, 0, 0]]⟩
      (scaleRow [0, 3, 0, 0, 0, 0, 0, 0] [0, 9, 0, 0, 0, 0, 0, 0]
        [0, 2, 0, 0, 0, 0, 0, 0]) = 0 := by
    unfold kneighborsIdx
    dsimp only []
    simp only [huS, List.map_cons, List.map_nil, hrow0, hrow1, hd0, hd1]
    exact hargmin
  have hfm : features_to_matrix [refA, refB] =
      some [[0, 0, 0, 0, 0, 0, 0, 0], [0, 6, 0, 0, 0, 0, 0, 0]] := by decide
  have hvars : colVars [[0, 0, 0, 0, 0, 0, 0, 0], [0, 6, 0, 0, 0, 0, 0, 0]] =
      [0, 9, 0, 0, 0, 0, 0, 0] := by with_unfolding_all decide
  have hs9R : Real.sqrt (9 : ℝ) = 3 := by
    rw [show (9 : ℝ) = (3 : ℝ) ^ 2 by norm_num]
    exact Real.sqrt_sq (by norm_num)
  have hstds : ([0, 9, 0, 0, 0, 0, 0, 0] : List ℚ).map
      (fun v => Real.sqrt (v : ℝ)) = [0, 3, 0, 0, 0, 0, 0, 0] := by
    norm_num [hs9R, Real.sqrt_zero]
  have hwz : calculate_weighted_z_scores candU refA golden8
      [0, 3, 0, 0, 0, 0, 0, 0] = some
      [("bpm", ⟨0, 0, 0, 0, 3/2⟩),
       ("beat_strength", ⟨2, 0, 2/3, 2, 3⟩),
       ("onset_rate", ⟨0, 0, 0, 0, 2⟩),
       ("energy", ⟨0, 0, 0, 0, 3/2⟩),
       ("danceability", ⟨0, 0, 0, 0, 2⟩),
       ("spectral_rolloff", ⟨0, 0, 0, 0, 1⟩),
       ("spectral_flatness", ⟨0, 0, 0, 0, 1⟩),
       ("dynamic_range", ⟨0, 0, 0, 0, 1/2⟩)] := by
    norm_num +decide [calculate_weighted_z_scores, golden8, lookup, candU, refA,
      FEATURE_WEIGHTS]
  have halerts : identify_critical_alerts
      [("bpm", ⟨0, 0, 0, 0, 3/2⟩),
       ("beat_strength", ⟨2, 0, 2/3, 2, 3⟩),
       ("onset_rate", ⟨0, 0, 0, 0, 2⟩),
       ("energy", ⟨0, 0, 0, 0, 3/2⟩),
       ("danceability", ⟨0, 0, 0, 0, 2⟩),
       ("spectral_rolloff", ⟨0, 0, 0, 0, 1⟩),
       ("spectral_flatness", ⟨0, 0, 0, 0, 1⟩),
       ("dynamic_range", ⟨0, 0, 0, 0, 1/2⟩)] = some [] := by
    norm_num +decide [identify_critical_alerts, lookup, CRITICAL_THRESHOLD,
      List.filterMap_cons, List.filterMap_nil]
  refine ⟨⟨candU, refA, 0,
      [("bpm", ⟨0, 0, 0, 0, 3/2⟩),
       ("beat_strength", ⟨2, 0, 2/3, 2, 3⟩),
       ("onset_rate", ⟨0, 0, 0, 0, 2⟩),
       ("energy", ⟨0, 0, 0, 0, 3/2⟩),
       ("danceability", ⟨0, 0, 0, 0, 2⟩),
       ("spectral_rolloff", ⟨0, 0, 0, 0, 1⟩),
       ("spectral_flatness", ⟨0, 0, 0, 0, 1⟩),
       ("dynamic_range", ⟨0, 0, 0, 0, 1/2⟩)], []⟩, ?_,
    ⟨⟨2, 0, 2/3, 2, 3⟩, rfl, rfl, by norm_num, ?_⟩, rfl⟩
  · rw [hstate]
    unfold check_track
    dsimp only []
    rw [harr]
    dsimp only [Option.some_bind]
    rw [hkn]
    rw [show ([refA, refB] : List Feat).get? 0 = some refA from rfl]
    dsimp only []
    rw [hfm]
    dsimp only []
    rw [hvars, hstds, hwz]
    dsimp only []
    rw [halerts]
  · rw [CRITICAL_THRESHOLD]
    norm_num

/-- Witness for C1 amended: a concrete table where the non-rhythm feature
`energy` has weighted z = 2 (> 1.5) and does receive a WARNING alert. -/
theorem c1_amended_witness :
    (⟨"energy", AlertLevel.warning, decide ((2 : ℝ) < 0)⟩ : Alert) ∈
      [(⟨"energy", AlertLevel.warning, decide ((2 : ℝ) < 0)⟩ : Alert)] :=
  (c1_amended
      [("beat_strength", ⟨0, 0, 0, 0, 3⟩), ("onset_rate", ⟨0, 0, 0, 0, 2⟩),
       ("energy", ⟨1, 0, 2, 2, 3/2⟩)]
      [⟨"energy", AlertLevel.warning, decide ((2 : ℝ) < 0)⟩]
      (by norm_num +decide [identify_critical_alerts, lookup, CRITICAL_THRESHOLD,
        List.filterMap_cons, List.filterMap_nil])).1
    "energy" ⟨1, 0, 2, 2, 3/2⟩ (by simp) (by decide) (by decide) (by norm_num)
